import Mathlib

/-!
Verification of the dice-roller program (src/dice_roller.py): a shallow
embedding of its data model, die classes, table renderer, menu input loop,
persistence layer and storage-initialisation routine, followed by theorems
settling the specification claims. Python exceptions are modelled with an
explicit error type; Python runtime values that matter to the claims are
modelled by `PyVal`; randomness is modelled by an explicit index stream.
-/

/-- Python exceptions that the embedded code can raise. -/
inductive PyErr where
  | typeError
  | valueError
  | zeroDivisionError
  | eofError
  | ioError
  | indexError
deriving DecidableEq, Repr

/-- The Python runtime values relevant to die construction: integers,
booleans (a distinct runtime type tag, although `bool` subclasses `int`),
and strings. -/
inductive PyVal where
  | int (n : Int)
  | bool (b : Bool)
  | str (s : String)
deriving DecidableEq, Repr

/-- The check `type(v) is int` performed by `NumericalDie.__init__`:
true exactly when the exact runtime type tag is `int` (so `bool` fails). -/
def PyVal.typeIsInt : PyVal → Bool
  | .int _ => true
  | _ => false

/-- Extract the integer payload of a `PyVal`, when it is an `int`. -/
def PyVal.toIntVal : PyVal → Option Int
  | .int n => some n
  | _ => none

/-- Follows the claim wording: a value that is an integer in the Python
sense of `isinstance(v, int)`. Booleans are integers under this notion
because `bool` subclasses `int`; strings are not. Used only to compare the
claim wording against the source check `PyVal.typeIsInt`. -/
def PyVal.isIntegerValue : PyVal → Bool
  | .int _ => true
  | .bool _ => true
  | .str _ => false

/-- A `Die` object as constructed by `Die.__init__(values, name)`. The
`_values` attribute is whatever was passed: in the program it is either a
sequence of integers (a `range` or a list, `ofList`) or - due to the bug on
the `_all_dice` line - another die object (`ofDie`). -/
inductive DieObj where
  | ofList (values : List Int) (name : String)
  | ofDie (values : DieObj) (name : String)
deriving DecidableEq, Repr

/-- The `name` attribute of a die object. -/
def DieObj.name : DieObj → String
  | .ofList _ n => n
  | .ofDie _ n => n

/-- `Die.roll`: `self._values[rand(len(self._values))]`. The index stream
supplies `i`; `randrange` reduces it modulo the length. When `_values` is a
die object, `len()` raises `TypeError`; when it is empty, `randrange(0)`
raises `ValueError`. -/
def DieObj.roll : DieObj → Nat → Except PyErr Int
  | .ofList xs _, i =>
      if h : 0 < xs.length then .ok (xs.get ⟨i % xs.length, Nat.mod_lt i h⟩)
      else .error .valueError
  | .ofDie _ _, _ => .error .typeError

/-- `ClassicDie.__init__(max_val, name)`: a numerical die over
`range(0, max_val + 1)`, i.e. faces `0, 1, ..., max_val`. The range
elements are all ints, so the `NumericalDie` validation loop passes. -/
def classicDie (max_val : Nat) (name : String) : DieObj :=
  .ofList ((List.range (max_val + 1)).map Int.ofNat) name

/-- The module-level registry
`_all_dice = [Die(ClassicDie(spots, "D{}".format(spots))) for spots in [4, 6, 8, 10, 12, 20]]`:
each classic die is wrapped in a plain `Die`, whose name defaults to
"generic die" and whose `_values` is the classic-die object itself. -/
def all_dice : List DieObj :=
  [4, 6, 8, 10, 12, 20].map
    (fun spots => DieObj.ofDie (classicDie spots ("D" ++ toString spots)) "generic die")

/-- Python `sum(rolls)`: a left fold of addition starting from 0. -/
def pySum (rolls : List Int) : Int :=
  rolls.foldl (· + ·) 0

/-- `Die.roll_multiple(times)`: roll `times` times, collecting the results
in order. Raises on the first roll when the face list is empty (and
`times ≥ 1`). The stream `f` supplies the random indices. -/
def die_roll_multiple (xs : List Int) (f : Nat → Nat) (times : Nat) :
    Except PyErr (List Int) :=
  if h : 0 < xs.length then
    .ok ((List.range times).map (fun t => xs.get ⟨f t % xs.length, Nat.mod_lt (f t) h⟩))
  else if times = 0 then .ok []
  else .error .valueError

/-- `NumericalDie._additional_values(rolls)`: the tuple
`(sum, average, max, min)`. On an empty batch the average divides by zero
(`ZeroDivisionError`) before `max`/`min` can raise. Average is Python true
division, modelled exactly as rational division. -/
def additional_values : List Int → Except PyErr (Int × ℚ × Int × Int)
  | [] => .error .zeroDivisionError
  | x :: xs =>
      .ok (pySum (x :: xs),
           (pySum (x :: xs) : ℚ) / ((x :: xs).length : ℚ),
           xs.foldl max x,
           xs.foldl min x)

/-- `NumericalDie.roll_multiple(times)`: the batch of rolls paired with the
additional values computed over it. -/
def numerical_roll_multiple (xs : List Int) (f : Nat → Nat) (times : Nat) :
    Except PyErr (List Int × (Int × ℚ × Int × Int)) :=
  match die_roll_multiple xs f times with
  | .error e => .error e
  | .ok rolls =>
      match additional_values rolls with
      | .error e => .error e
      | .ok extra => .ok (rolls, extra)

/-- A constructed `NumericalDie`: its validated face values and name. -/
structure NumericalDie where
  values : List Int
  name : String
deriving DecidableEq, Repr

/-- `NumericalDie.__init__(num_values, name)`: raises `ValueError` as soon
as some value has `type(num) is not int`; otherwise stores the values. -/
def NumericalDie.init (num_values : List PyVal) (name : String) :
    Except PyErr NumericalDie :=
  if num_values.all PyVal.typeIsInt then
    .ok ⟨num_values.filterMap PyVal.toIntVal, name⟩
  else .error .valueError

/-- `_print_table(values, columns, padding)`, modelled up to its row
structure: it computes `i_width = padding + len(str(len(values)))`, then
`v_width = padding + max([len(str(val)) for val in values])` - which raises
`ValueError` on an empty list - then loops
`for row in range(int(math.ceil(val_len / columns)))` (a
`ZeroDivisionError` when `columns = 0`), taking the slice
`values[row : row + columns]` and labelling cell `roll_index` of that slice
with `columns * row + roll_index + 1`. Returns the two widths and the rows
of (label, value) cells. -/
def print_table (values : List Int) (columns : Nat) (padding : Nat) :
    Except PyErr (Nat × Nat × List (List (Nat × Int))) :=
  let val_len := values.length
  let i_width := padding + (toString val_len).length
  match values with
  | [] => .error .valueError
  | v :: vs =>
      let v_width :=
        padding + (vs.map (fun x => (toString x).length)).foldl max (toString v).length
      if columns = 0 then .error .zeroDivisionError
      else
        .ok (i_width, v_width,
          (List.range ((val_len + columns - 1) / columns)).map (fun row =>
            let num_rolls := ((v :: vs).drop row).take columns
            (List.range num_rolls.length).map
              (fun ri => (columns * row + ri + 1, num_rolls.getD ri 0))))

/-- A Python `str.strip()` default whitespace character. -/
def isPySpace (c : Char) : Bool :=
  c == ' ' || c == '\t' || c == '\n' || c == '\r'

/-- Drop leading whitespace from a character list. -/
def dropSpaces : List Char → List Char
  | [] => []
  | c :: cs => if isPySpace c then dropSpaces cs else c :: cs

/-- Python `str.strip()`: drop whitespace from both ends. -/
def stripChars (cs : List Char) : List Char :=
  (dropSpaces (dropSpaces cs).reverse).reverse

/-- ASCII lowercasing of one character, as `str.lower()` acts on the ASCII
inputs the menus deal with. -/
def lowerChar (c : Char) : Char :=
  if 65 ≤ c.toNat ∧ c.toNat ≤ 90 then Char.ofNat (c.toNat + 32) else c

/-- Python `int(s)` on a string: strip surrounding whitespace, allow an
optional sign, then require a non-empty run of decimal digits. -/
def pyStrToInt (s : String) : Option Int :=
  match stripChars s.data with
  | [] => none
  | c :: cs =>
      if c = '-' then
        if cs ≠ [] ∧ cs.all Char.isDigit then
          some (-(Int.ofNat (cs.foldl (fun a d => a * 10 + (d.toNat - 48)) 0)))
        else none
      else if c = '+' then
        if cs ≠ [] ∧ cs.all Char.isDigit then
          some (Int.ofNat (cs.foldl (fun a d => a * 10 + (d.toNat - 48)) 0))
        else none
      else
        if (c :: cs).all Char.isDigit then
          some (Int.ofNat ((c :: cs).foldl (fun a d => a * 10 + (d.toNat - 48)) 0))
        else none

/-- What `_menu_input` can hand back to its caller: an in-range integer,
the string `"back"`, or Python `None` (the fall-through when the input is
non-numeric and not the back token). -/
inductive MenuToken where
  | val (n : Int)
  | back
  | pyNone
deriving DecidableEq, Repr

/-- `_menu_input(input_min, input_max)` driven by a scripted list of input
lines. A numeric line in range is returned; a numeric line out of range
prints an error and recurses on the remaining input; a non-numeric line
returns `"back"` when it case-insensitively equals the back token and
otherwise falls off the function, returning `None`. An exhausted input
script models `input()` at end of stream (`EOFError`). -/
def menu_input : Int → Int → List String → Except PyErr (MenuToken × List String)
  | _, _, [] => .error .eofError
  | input_min, input_max, s :: rest =>
      match pyStrToInt s with
      | some n =>
          if input_min ≤ n ∧ n ≤ input_max then .ok (.val n, rest)
          else menu_input input_min input_max rest
      | none =>
          if s.data.map lowerChar = "back".data then .ok (.back, rest)
          else .ok (.pyNone, rest)

/-- `_print_menu(*options)`: read a choice with
`_menu_input(1, len(options))`, then return `None` for the back token or
`options[menu_option - 1]`. When `_menu_input` returned Python `None`, the
comparison passes but `None - 1` raises `TypeError`. -/
def print_menu (options : List α) (inputs : List String) :
    Except PyErr (Option α × List String) :=
  match menu_input 1 (Int.ofNat options.length) inputs with
  | .error e => .error e
  | .ok (.back, rest) => .ok (none, rest)
  | .ok (.val n, rest) =>
      match options.get? (n - 1).toNat with
      | some a => .ok (some a, rest)
      | none => .error .indexError
  | .ok (.pyNone, _) => .error .typeError

/-- `sys.maxsize` on a 64-bit platform. -/
def maxsize : Int := 2 ^ 63 - 1

/-- Outcome of the roll-count prompt: a count to roll with, or the intended
(return to die selection) path. -/
inductive RollOutcome where
  | count (n : Int)
  | backToDieSelect
deriving DecidableEq, Repr

/-- The `while True` loop of `_print_menu_roll`: read
`_menu_input(1, sys.maxsize)`; then `int(num_input)`. On an integer this
breaks with the count. On the string `"back"`, `int("back")` raises
`ValueError`, which the `except TypeError` clause does not catch, so it
propagates. On Python `None`, `int(None)` raises `TypeError`, which is
caught; `None != "back"`, so the loop prints an error and repeats. The fuel
bounds the iterations by the number of scripted inputs. -/
def roll_prompt_loop : Nat → List String → Except PyErr (RollOutcome × List String)
  | 0, _ => .error .eofError
  | fuel + 1, inputs =>
      match menu_input 1 maxsize inputs with
      | .error e => .error e
      | .ok (.val n, rest) => .ok (.count n, rest)
      | .ok (.back, _) => .error .valueError
      | .ok (.pyNone, rest) => roll_prompt_loop fuel rest

/-- The roll-count prompt of `_print_menu_roll` on a scripted input list. -/
def roll_prompt (inputs : List String) : Except PyErr (RollOutcome × List String) :=
  roll_prompt_loop inputs.length inputs

/-- The append performed by `create_custom_die`: `pickle.dump` of one die
onto the end of the storage file, leaving earlier records in place. The
storage file is modelled as the list of records it holds. -/
def dump_custom_die (storage : List NumericalDie) (d : NumericalDie) :
    List NumericalDie :=
  storage ++ [d]

/-- `_load_saved_dice`: unpickle every record of the storage file in order,
appending each to the registry. -/
def load_saved_dice (dice : List DieObj) (storage : List NumericalDie) :
    List DieObj :=
  dice ++ storage.map (fun d => DieObj.ofList d.values d.name)

/-- Decidable equality for `Except` results, so that concrete runs of the
embedded functions can be checked by `decide`. -/
instance {ε α : Type} [DecidableEq ε] [DecidableEq α] : DecidableEq (Except ε α) := fun x y =>
  match x, y with
  | .error a, .error b =>
      if h : a = b then isTrue (by rw [h])
      else isFalse (fun hh => by cases hh; exact h rfl)
  | .ok a, .ok b =>
      if h : a = b then isTrue (by rw [h])
      else isFalse (fun hh => by cases hh; exact h rfl)
  | .error _, .ok _ => isFalse (fun hh => by cases hh)
  | .ok _, .error _ => isFalse (fun hh => by cases hh)

/-- The bits of filesystem state `_create_user_dir_file` touches: whether
the storage directory and the storage file exist. -/
structure FS where
  dirExists : Bool
  fileExists : Bool
deriving DecidableEq, Repr

/-- `_create_user_dir_file()`: when the storage file is missing, `open` for
read raises `IOError` (caught) and then `open` for write either creates the
file (when its directory exists) or raises an uncaught `IOError` (the
directory is only created by the later `makedirs`, which is never reached
in that case). Finally the directory is created when absent. -/
def create_user_dir_file (fs : FS) : Except PyErr FS :=
  let after_file : Except PyErr FS :=
    if fs.fileExists then .ok fs
    else if fs.dirExists then .ok { fs with fileExists := true }
    else .error .ioError
  match after_file with
  | .error e => .error e
  | .ok fs1 =>
      .ok (if fs1.dirExists then fs1 else { fs1 with dirExists := true })

/-! Helper lemmas about left folds, used to relate the statistics computed
by `additional_values` to the sum, maximum and minimum of the roll batch. -/

theorem foldl_add_int (l : List Int) (a : Int) : l.foldl (· + ·) a = a + l.sum := by
  induction l generalizing a with
  | nil => simp
  | cons x xs ih => simp [List.foldl_cons, ih, List.sum_cons]; ring

theorem pySum_eq_sum (l : List Int) : pySum l = l.sum := by
  simp [pySum, foldl_add_int]

theorem foldl_max_eq_or_mem (l : List Int) (a : Int) :
    l.foldl max a = a ∨ l.foldl max a ∈ l := by
  induction l generalizing a with
  | nil => exact Or.inl rfl
  | cons x xs ih =>
      simp only [List.foldl_cons]
      rcases ih (max a x) with h | h
      · rw [h]
        rcases le_total x a with hxa | hax
        · exact Or.inl (max_eq_left hxa)
        · exact Or.inr (by rw [max_eq_right hax]; exact List.mem_cons_self x xs)
      · exact Or.inr (List.mem_cons_of_mem x h)

theorem le_foldl_max (l : List Int) (a : Int) : a ≤ l.foldl max a := by
  induction l generalizing a with
  | nil => exact le_refl a
  | cons x xs ih =>
      simp only [List.foldl_cons]
      exact le_trans (le_max_left a x) (ih (max a x))

theorem mem_le_foldl_max (l : List Int) : ∀ (a b : Int), b ∈ l → b ≤ l.foldl max a := by
  induction l with
  | nil => intro a b hb; cases hb
  | cons x xs ih =>
      intro a b hb
      simp only [List.foldl_cons]
      rcases List.mem_cons.mp hb with rfl | h
      · exact le_trans (le_max_right a b) (le_foldl_max xs (max a b))
      · exact ih (max a x) b h

theorem foldl_min_eq_or_mem (l : List Int) (a : Int) :
    l.foldl min a = a ∨ l.foldl min a ∈ l := by
  induction l generalizing a with
  | nil => exact Or.inl rfl
  | cons x xs ih =>
      simp only [List.foldl_cons]
      rcases ih (min a x) with h | h
      · rw [h]
        rcases le_total a x with hax | hxa
        · exact Or.inl (min_eq_left hax)
        · exact Or.inr (by rw [min_eq_right hxa]; exact List.mem_cons_self x xs)
      · exact Or.inr (List.mem_cons_of_mem x h)

theorem foldl_min_le (l : List Int) (a : Int) : l.foldl min a ≤ a := by
  induction l generalizing a with
  | nil => exact le_refl a
  | cons x xs ih =>
      simp only [List.foldl_cons]
      exact le_trans (ih (min a x)) (min_le_left a x)

theorem foldl_min_le_mem (l : List Int) : ∀ (a b : Int), b ∈ l → l.foldl min a ≤ b := by
  induction l with
  | nil => intro a b hb; cases hb
  | cons x xs ih =>
      intro a b hb
      simp only [List.foldl_cons]
      rcases List.mem_cons.mp hb with rfl | h
      · exact le_trans (foldl_min_le xs (min a b)) (min_le_right a b)
      · exact ih (min a x) b h

theorem die_roll_multiple_ok (xs : List Int) (f : Nat → Nat) (n : Nat)
    (hx : 0 < xs.length) :
    ∃ rolls, die_roll_multiple xs f n = .ok rolls ∧ rolls.length = n ∧
      ∀ r ∈ rolls, r ∈ xs := by
  refine ⟨(List.range n).map (fun t => xs.get ⟨f t % xs.length, Nat.mod_lt (f t) hx⟩),
    ?_, ?_, ?_⟩
  · unfold die_roll_multiple
    rw [dif_pos hx]
  · simp
  · intro r hr
    simp only [List.mem_map, List.mem_range] at hr
    obtain ⟨t, -, rfl⟩ := hr
    exact List.get_mem _ _ _

/-- C1: the claim says the registry is seeded with six classic dice named
D4, D6, D8, D10, D12, D20, each of which rolls to one of its face values.
In the code, the `_all_dice` comprehension wraps each `ClassicDie` in a
plain `Die`, so every registry entry is named "generic die" and rolling any
of them raises `TypeError` (`len()` of a die object), for every random
index. -/
theorem c1_registry_seeding_bug :
    all_dice.map DieObj.name =
      ["generic die", "generic die", "generic die",
       "generic die", "generic die", "generic die"] ∧
    ∀ i : Nat, all_dice.map (fun d => d.roll i) =
      List.replicate 6 (Except.error PyErr.typeError) :=
  ⟨rfl, fun _ => rfl⟩

/-- C2: for every numerical die with a non-empty face list and every
`n ≥ 1`, `roll_multiple(n)` returns exactly `n` results, each a configured
face value, together with statistics where the sum is the sum of the
results, the average is the sum divided by `n` (true division, modelled as
exact rational division), and the max and min are the greatest and least
results; this holds for every random index stream, including `n = 1`. -/
theorem c2_roll_multiple_stats (xs : List Int) (f : Nat → Nat) (n : Nat)
    (hx : xs ≠ []) (hn : 1 ≤ n) :
    ∃ rolls s avg mx mn,
      numerical_roll_multiple xs f n = .ok (rolls, (s, avg, mx, mn)) ∧
      rolls.length = n ∧
      (∀ r ∈ rolls, r ∈ xs) ∧
      s = rolls.sum ∧
      avg = (rolls.sum : ℚ) / (n : ℚ) ∧
      mx ∈ rolls ∧ (∀ r ∈ rolls, r ≤ mx) ∧
      mn ∈ rolls ∧ (∀ r ∈ rolls, mn ≤ r) := by
  have hlen : 0 < xs.length := List.length_pos.mpr hx
  obtain ⟨rolls, hdie, hlenr, hmem⟩ := die_roll_multiple_ok xs f n hlen
  obtain ⟨r0, rest, rfl⟩ : ∃ r0 rest, rolls = r0 :: rest := by
    cases rolls with
    | nil => simp at hlenr; omega
    | cons a l => exact ⟨a, l, rfl⟩
  refine ⟨r0 :: rest, pySum (r0 :: rest),
    (pySum (r0 :: rest) : ℚ) / ((r0 :: rest).length : ℚ),
    rest.foldl max r0, rest.foldl min r0, ?_, hlenr, hmem, pySum_eq_sum _,
    ?_, ?_, ?_, ?_, ?_⟩
  · unfold numerical_roll_multiple
    rw [hdie]
    rfl
  · rw [pySum_eq_sum, hlenr]
  · rcases foldl_max_eq_or_mem rest r0 with h | h
    · rw [h]; exact List.mem_cons_self r0 rest
    · exact List.mem_cons_of_mem r0 h
  · intro r hr
    rcases List.mem_cons.mp hr with rfl | h
    · exact le_foldl_max rest r
    · exact mem_le_foldl_max rest r0 r h
  · rcases foldl_min_eq_or_mem rest r0 with h | h
    · rw [h]; exact List.mem_cons_self r0 rest
    · exact List.mem_cons_of_mem r0 h
  · intro r hr
    rcases List.mem_cons.mp hr with rfl | h
    · exact foldl_min_le rest r
    · exact foldl_min_le_mem rest r0 r h

/-- Witness for C2 at the die `[3, 1, 2]`, the identity index stream and
`n = 2`: the batch is `[3, 1]` with sum 4, average 2, max 3 and min 1. -/
theorem c2_roll_multiple_stats_witness :
    ∃ rolls s avg mx mn,
      numerical_roll_multiple [3, 1, 2] (fun t => t) 2 = .ok (rolls, (s, avg, mx, mn)) ∧
      rolls.length = 2 ∧
      (∀ r ∈ rolls, r ∈ [3, 1, 2]) ∧
      s = rolls.sum ∧
      avg = (rolls.sum : ℚ) / ((2 : Nat) : ℚ) ∧
      mx ∈ rolls ∧ (∀ r ∈ rolls, r ≤ mx) ∧
      mn ∈ rolls ∧ (∀ r ∈ rolls, mn ≤ r) :=
  c2_roll_multiple_stats [3, 1, 2] (fun t => t) 2 (by decide) (by decide)

/-- C3: the claim says the back token (case-insensitively) returns control
to the parent context from every menu and prompt, in particular from the
roll-count prompt back to die selection. At the main and die-selection
menus this works (last two conjuncts), but at the roll-count prompt the
code computes `int("back")`, which raises `ValueError`; the surrounding
`except TypeError` clause does not catch it, so the program crashes instead
of returning to die selection (first two conjuncts, lower and upper
case). -/
theorem c3_back_at_roll_prompt_bug :
    roll_prompt ["back"] = .error .valueError ∧
    roll_prompt ["BACK"] = .error .valueError ∧
    print_menu ["choose die"] ["back"] = .ok (none, []) ∧
    print_menu ["D4", "D6", "create custom die"] ["Back"] = .ok (none, []) := by
  refine ⟨?_, ?_, ?_, ?_⟩ <;> decide

/-- C4: the claim says every invalid menu input is rejected with an error
message and re-prompted, never propagating. Numeric out-of-range inputs are
indeed retried (second conjunct: on a two-option menu, "5" and "0" are
rejected and "2" is then accepted). But a non-numeric input that is not the
back token makes `_menu_input` fall through and return `None`, and
`_print_menu` then raises `TypeError` evaluating `options[None - 1]`
(first conjunct), so the error propagates out of the menu loop. -/
theorem c4_invalid_menu_input_bug :
    print_menu ["choose die"] ["xyz"] = .error .typeError ∧
    print_menu ["a", "b"] ["5", "0", "2"] = .ok (some "b", []) := by
  refine ⟨?_, ?_⟩ <;> decide

/-- C5 counterexample: the claim says the table renderer has no error
conditions and renders an empty sequence as no output; in the code
`max([len(str(val)) for val in values])` raises `ValueError` on the empty
sequence (here at the default column count 5 and padding 4). -/
theorem c5_empty_table_counterexample :
    print_table [] 5 4 = .error .valueError :=
  rfl

/-- C5 amended: rendering an empty sequence raises `ValueError` (from `max`
of an empty list) for every column count and padding; a non-empty sequence
with zero columns raises `ZeroDivisionError`; and for every non-empty
sequence, positive column count and padding the renderer produces output
with no error. -/
theorem c5_table_error_conditions (values : List Int) (columns padding : Nat) :
    (print_table [] columns padding = .error .valueError) ∧
    (values ≠ [] → print_table values 0 padding = .error .zeroDivisionError) ∧
    (values ≠ [] → 0 < columns → ∃ out, print_table values columns padding = .ok out) := by
  refine ⟨rfl, ?_, ?_⟩
  · intro hv
    obtain ⟨v, vs, rfl⟩ : ∃ v vs, values = v :: vs := by
      cases values with
      | nil => exact absurd rfl hv
      | cons a l => exact ⟨a, l, rfl⟩
    rfl
  · intro hv hc
    obtain ⟨v, vs, rfl⟩ : ∃ v vs, values = v :: vs := by
      cases values with
      | nil => exact absurd rfl hv
      | cons a l => exact ⟨a, l, rfl⟩
    obtain ⟨c, rfl⟩ : ∃ c, columns = c + 1 := ⟨columns - 1, by omega⟩
    exact ⟨_, rfl⟩

/-- Witness for C5 amended at the one-element table `[7]` with the default
column count and padding. -/
theorem c5_table_error_conditions_witness :
    ∃ out, print_table [7] 5 4 = .ok out :=
  (c5_table_error_conditions [7] 5 4).2.2 (by decide) (by decide)

/-- C6: the claim says rendering N values with 5 columns partitions them
left-to-right, top-to-bottom with labels matching original positions. The
loop slices `values[row : row + columns]` instead of
`values[row * columns : row * columns + columns]`: on six values the second
row repeats values 2 through 5 and pairs label 6 with the value at original
position 2 (11), not the value at position 6 (15). The row count,
`ceil(6 / 5) = 2`, is as claimed. -/
theorem c6_table_layout_bug :
    print_table [10, 11, 12, 13, 14, 15] 5 4 =
      .ok (5, 6, [[(1, 10), (2, 11), (3, 12), (4, 13), (5, 14)],
                  [(6, 11), (7, 12), (8, 13), (9, 14), (10, 15)]]) :=
  rfl

/-- C7: appending a custom die to the storage file and reloading yields a
registry containing a die with its face values and name; appending X then Y
and reloading yields both, in append order, after the built-in dice; and an
append leaves every previously written record in place as a prefix. -/
theorem c7_persistence_round_trip (X Y : NumericalDie) (s : List NumericalDie) :
    DieObj.ofList X.values X.name ∈ load_saved_dice all_dice (dump_custom_die [] X) ∧
    load_saved_dice all_dice (dump_custom_die (dump_custom_die [] X) Y) =
      all_dice ++ [DieObj.ofList X.values X.name, DieObj.ofList Y.values Y.name] ∧
    (dump_custom_die s X).take s.length = s := by
  refine ⟨?_, ?_, ?_⟩
  · simp [load_saved_dice, dump_custom_die]
  · simp [load_saved_dice, dump_custom_die]
  · exact List.take_left s [X]

/-- C8 counterexample: the claim says construction succeeds for every
sequence of all-integer values, but `[True]` is all-integer in the Python
sense (`bool` subclasses `int`, so `isinstance(True, int)` holds) and the
constructor still reports `ValueError`, because it checks the exact runtime
type with `type(num) is not int`. -/
theorem c8_integer_check_counterexample :
    ([PyVal.bool true]).all PyVal.isIntegerValue = true ∧
    NumericalDie.init [PyVal.bool true] "coin flip" = .error .valueError := by
  refine ⟨?_, ?_⟩ <;> decide

/-- C8 amended: constructing a `NumericalDie` fails with `ValueError` if
and only if some supplied value has exact runtime type other than `int`
(booleans included), and succeeds if and only if every value has exact
runtime type `int`. -/
theorem c8_exact_int_type_check (vals : List PyVal) (name : String) :
    (NumericalDie.init vals name = .error .valueError ↔
      ∃ v ∈ vals, v.typeIsInt = false) ∧
    ((∃ d, NumericalDie.init vals name = .ok d) ↔ ∀ v ∈ vals, v.typeIsInt = true) := by
  by_cases hall : vals.all PyVal.typeIsInt = true
  · have hev := List.all_eq_true.mp hall
    constructor
    · simp only [NumericalDie.init, hall, if_true]
      constructor
      · intro h; cases h
      · intro ⟨v, hv, hfalse⟩
        rw [hev v hv] at hfalse
        cases hfalse
    · simp only [NumericalDie.init, hall, if_true]
      exact ⟨fun _ => hev, fun _ => ⟨_, rfl⟩⟩
  · have hex : ∃ v ∈ vals, v.typeIsInt = false := by
      rcases List.all_eq_true.not.mp hall with h
      push_neg at h
      obtain ⟨v, hv, hne⟩ := h
      exact ⟨v, hv, by simpa using hne⟩
    constructor
    · simp only [NumericalDie.init, if_neg hall]
      exact ⟨fun _ => hex, fun _ => trivial⟩
    · simp only [NumericalDie.init, if_neg hall]
      constructor
      · intro ⟨d, hd⟩; cases hd
      · intro h
        exact absurd (List.all_eq_true.mpr h) hall

/-- Witness for C8 amended at the all-int list `[1]`: construction
succeeds, and neither failure condition holds. -/
theorem c8_exact_int_type_check_witness :
    (NumericalDie.init [PyVal.int 1] "die" = .error .valueError ↔
      ∃ v ∈ [PyVal.int 1], v.typeIsInt = false) ∧
    ((∃ d, NumericalDie.init [PyVal.int 1] "die" = .ok d) ↔
      ∀ v ∈ [PyVal.int 1], v.typeIsInt = true) :=
  c8_exact_int_type_check [PyVal.int 1] "die"

/-- C9: the claim says the ensure-storage-exists operation creates the
missing directory and file on a completely fresh start and is idempotent.
In the code the file is created before the directory check: on a fresh
start `open(_file_path, "w")` inside the `except` clause raises an uncaught
`IOError` because the directory does not exist yet (first conjunct). When
the directory already exists the operation does succeed and is idempotent
(remaining conjuncts). -/
theorem c9_fresh_start_storage_bug :
    create_user_dir_file ⟨false, false⟩ = .error .ioError ∧
    create_user_dir_file ⟨true, false⟩ = .ok ⟨true, true⟩ ∧
    create_user_dir_file ⟨true, true⟩ = .ok ⟨true, true⟩ ∧
    create_user_dir_file ⟨false, true⟩ = .ok ⟨true, true⟩ := by
  refine ⟨?_, ?_, ?_, ?_⟩ <;> decide

/-- C10: constructing a `NumericalDie` from a value sequence containing any
boolean (`True` or `False`) fails with `ValueError`: `type(num) is not int`
rejects booleans even though `bool` subclasses `int`. -/
theorem c10_bool_face_rejected (vals : List PyVal) (name : String) (b : Bool)
    (hb : PyVal.bool b ∈ vals) :
    NumericalDie.init vals name = .error .valueError := by
  have hnall : ¬ vals.all PyVal.typeIsInt = true := by
    intro hall
    have := List.all_eq_true.mp hall (PyVal.bool b) hb
    cases this
  simp only [NumericalDie.init, if_neg hnall]

/-- Witness for C10 at the single-value sequence `[True]`. -/
theorem c10_bool_face_rejected_witness :
    NumericalDie.init [PyVal.bool true] "bool die" = .error .valueError :=
  c10_bool_face_rejected [PyVal.bool true] "bool die" true (by decide)
